import Mathlib

/-!
Shallow embedding of `tienda/models.py`: a small e-commerce catalog data
model (categories, products, per-size stock records, product images)
together with the derived operations those models expose
(`tiene_stock`, `stock_total`, `estado_stock`, `precio_formateado`,
`get_whatsapp_url`, the slug-assigning `Producto.save` and the
primary-flag-clearing `ImagenProducto.save`).

Machine integers of the source (`IntegerField`) are modelled as `Int`;
`precio` is a `DecimalField` with `decimal_places=0` and
`MinValueValidator(0)`, hence a non-negative integer, modelled as `Nat`.
Nullable text fields (`blank=True, null=True`) are `Option String`.
Foreign keys are modelled by numeric ids; a reverse relation such as
`producto.stock_tallas` becomes a filter over the list of all rows.
-/

/-- Embedding of `Categoria`: a named grouping with a fixed type tag
(`tipo ∈ {polera, pantalon, accesorio}` via `TIPO_CHOICES`), optional
description, active flag and display order. -/
structure Categoria where
  nombre : String
  tipo : String
  descripcion : Option String
  activo : Bool
  orden : Int
deriving Repr, DecidableEq

/-- Embedding of `StockTalla`: a per-size quantity record owned by a
product (`producto` holds the owning product's id, the `ForeignKey`).
`cantidad` is an `IntegerField`, so it is modelled as `Int`; its
`MinValueValidator(0)` runs only during form validation, not on direct
writes, so negative values are representable. -/
structure StockTalla where
  producto : Nat
  talla : String
  cantidad : Int
deriving Repr, DecidableEq

/-- Embedding of `Producto`. `categoria` is inlined (the `ForeignKey`
target record), `precio` is the non-negative integral `DecimalField`,
timestamps are abstract `Nat` instants, and the category-conditional
fields (`tipo_pantalon`, accessory fields) are `Option String`. -/
structure Producto where
  id : Nat
  nombre : String
  slug : String
  descripcion : String
  categoria : Categoria
  precio : Nat
  activo : Bool
  destacado : Bool
  fecha_creacion : Nat
  fecha_actualizacion : Nat
  tipo_pantalon : Option String
  tipo_accesorio : Option String
  material : Option String
  dimensiones : Option String
  color : Option String
  stock_accesorio : Int
  caracteristicas : Option String
deriving Repr, DecidableEq

/-- The reverse foreign-key relation `producto.stock_tallas`
(`related_name='stock_tallas'`): all `StockTalla` rows whose `producto`
id is `p.id`. -/
def stock_tallas (rows : List StockTalla) (p : Producto) : List StockTalla :=
  rows.filter (fun st => st.producto = p.id)

/-- Embedding of the property `Producto.tiene_stock`:
`if self.categoria.tipo == 'accesorio': return self.stock_accesorio > 0
else: return self.stock_tallas.filter(cantidad__gt=0).exists()`.
The queryset `.filter(...).exists()` is a non-emptiness test of the
filtered owned rows. -/
def tiene_stock (rows : List StockTalla) (p : Producto) : Bool :=
  if p.categoria.tipo = "accesorio" then
    decide (p.stock_accesorio > 0)
  else
    !((stock_tallas rows p).filter (fun st => decide (st.cantidad > 0))).isEmpty

/-- Embedding of the property `Producto.stock_total`:
`if self.categoria.tipo == 'accesorio': return self.stock_accesorio
else: return sum(st.cantidad for st in self.stock_tallas.all())`.
Python's `sum` over the generator is a left fold starting at `0`. -/
def stock_total (rows : List StockTalla) (p : Producto) : Int :=
  if p.categoria.tipo = "accesorio" then
    p.stock_accesorio
  else
    (stock_tallas rows p).foldl (fun acc st => acc + st.cantidad) 0

/-- Embedding of the property `StockTalla.estado_stock`:
`if self.cantidad == 0: return 'sin_stock'
elif self.cantidad <= 5: return 'poco_stock'
else: return 'buen_stock'`. -/
def estado_stock (st : StockTalla) : String :=
  if st.cantidad = 0 then "sin_stock"
  else if st.cantidad ≤ 5 then "poco_stock"
  else "buen_stock"

/-- Sample accessory category. -/
def catAccesorio : Categoria :=
  { nombre := "Accesorios", tipo := "accesorio", descripcion := none
    activo := true, orden := 0 }

/-- Sample apparel-top category (`tipo = 'polera'`). -/
def catPolera : Categoria :=
  { nombre := "Poleras", tipo := "polera", descripcion := none
    activo := true, orden := 0 }

/-- Sample accessory product with `stock_accesorio = 0` (spec test:
`hasStock` must be false regardless of any stray SizeStock rows). -/
def gorraAgotada : Producto :=
  { id := 7, nombre := "Gorra Negra", slug := "gorra-negra"
    descripcion := "Gorra", categoria := catAccesorio, precio := 5000
    activo := true, destacado := false, fecha_creacion := 10
    fecha_actualizacion := 10, tipo_pantalon := none
    tipo_accesorio := some "gorra", material := none, dimensiones := none
    color := none, stock_accesorio := 0, caracteristicas := none }

/-- Sample apparel product (polera) with id 3. -/
def poleraBasica : Producto :=
  { id := 3, nombre := "Polera Basica", slug := "polera-basica"
    descripcion := "Polera", categoria := catPolera, precio := 9990
    activo := true, destacado := false, fecha_creacion := 20
    fecha_actualizacion := 20, tipo_pantalon := none
    tipo_accesorio := none, material := none, dimensiones := none
    color := none, stock_accesorio := 0, caracteristicas := none }

/-- Spec test rows for `poleraBasica`: sizes {S:0, M:3, L:0}. -/
def filasPolera : List StockTalla :=
  [⟨3, "S", 0⟩, ⟨3, "M", 3⟩, ⟨3, "L", 0⟩]

theorem foldl_add_cantidad (l : List StockTalla) (a : Int) :
    l.foldl (fun acc st => acc + st.cantidad) a
      = a + (l.map (fun st => st.cantidad)).sum := by
  induction l generalizing a with
  | nil => simp
  | cons st rest ih =>
      simp only [List.foldl_cons, List.map_cons, List.sum_cons]
      rw [ih]
      ring

/-- C1: `tiene_stock` branches on the category type: for an accessory it
is `stock_accesorio > 0` and is insensitive to the `StockTalla` table;
otherwise it holds iff some owned `StockTalla` row has `cantidad > 0`. -/
theorem tiene_stock_spec (rows : List StockTalla) (p : Producto) :
    (p.categoria.tipo = "accesorio" →
      (tiene_stock rows p = true ↔ 0 < p.stock_accesorio)
        ∧ ∀ otherRows : List StockTalla,
            tiene_stock otherRows p = tiene_stock rows p)
    ∧ (p.categoria.tipo ≠ "accesorio" →
      (tiene_stock rows p = true ↔
        ∃ st ∈ stock_tallas rows p, 0 < st.cantidad)) := by
  constructor
  · intro hAcc
    constructor
    · simp [tiene_stock, hAcc]
    · intro otherRows
      simp [tiene_stock, hAcc]
  · intro hNo
    simp only [tiene_stock, if_neg hNo, Bool.not_eq_eq_eq_not, Bool.not_true,
      List.isEmpty_eq_false_iff_exists_mem]
    constructor
    · rintro ⟨st, hst⟩
      rw [List.mem_filter] at hst
      exact ⟨st, hst.1, by simpa using hst.2⟩
    · rintro ⟨st, hmem, hpos⟩
      exact ⟨st, List.mem_filter.mpr ⟨hmem, by simpa using hpos⟩⟩

/-- C1 witness: evaluated on an accessory with zero counter next to a
stray positive `StockTalla` row, and on an apparel product with rows
{S:0, M:3, L:0}. -/
theorem tiene_stock_spec_witness :
    (tiene_stock [⟨7, "M", 3⟩] gorraAgotada = true ↔
        0 < gorraAgotada.stock_accesorio)
      ∧ tiene_stock [⟨7, "M", 3⟩] gorraAgotada = false
      ∧ (tiene_stock filasPolera poleraBasica = true ↔
          ∃ st ∈ stock_tallas filasPolera poleraBasica, 0 < st.cantidad)
      ∧ tiene_stock filasPolera poleraBasica = true :=
  ⟨((tiene_stock_spec [⟨7, "M", 3⟩] gorraAgotada).1 rfl).1,
   by decide,
   (tiene_stock_spec filasPolera poleraBasica).2 (by decide),
   by decide⟩

/-- C2: `stock_total` is the accessory counter for accessories and the
sum of owned `StockTalla` quantities otherwise; with no owned rows the
non-accessory total is `0`, not an error. -/
theorem stock_total_spec (rows : List StockTalla) (p : Producto) :
    (p.categoria.tipo = "accesorio" →
      stock_total rows p = p.stock_accesorio)
    ∧ (p.categoria.tipo ≠ "accesorio" →
      stock_total rows p
        = ((stock_tallas rows p).map (fun st => st.cantidad)).sum)
    ∧ (p.categoria.tipo ≠ "accesorio" → stock_tallas rows p = [] →
      stock_total rows p = 0) := by
  refine ⟨fun hAcc => by simp [stock_total, hAcc], fun hNo => ?_, ?_⟩
  · simp only [stock_total, if_neg hNo]
    rw [foldl_add_cantidad]
    ring
  · intro hNo hEmpty
    simp [stock_total, if_neg hNo, hEmpty]

/-- C2 witness: the apparel product with rows {S:0, M:3, L:0} totals 3,
the accessory ignores rows, and a row-less apparel product totals 0. -/
theorem stock_total_spec_witness :
    stock_total filasPolera poleraBasica
        = ((stock_tallas filasPolera poleraBasica).map
            (fun st => st.cantidad)).sum
      ∧ stock_total filasPolera poleraBasica = 3
      ∧ stock_total [⟨7, "M", 3⟩] gorraAgotada = gorraAgotada.stock_accesorio
      ∧ stock_total [] poleraBasica = 0 :=
  ⟨(stock_total_spec filasPolera poleraBasica).2.1 (by decide),
   by decide,
   (stock_total_spec [⟨7, "M", 3⟩] gorraAgotada).1 rfl,
   (stock_total_spec [] poleraBasica).2.2 (by decide) rfl⟩

/-- C5: for non-negative quantities, `estado_stock` is `sin_stock` iff
the quantity is 0, `poco_stock` iff it lies in [1,5], and `buen_stock`
iff it exceeds 5. -/
theorem estado_stock_spec (st : StockTalla) (h : 0 ≤ st.cantidad) :
    (estado_stock st = "sin_stock" ↔ st.cantidad = 0)
    ∧ (estado_stock st = "poco_stock" ↔ 1 ≤ st.cantidad ∧ st.cantidad ≤ 5)
    ∧ (estado_stock st = "buen_stock" ↔ 5 < st.cantidad) := by
  unfold estado_stock
  split
  · rename_i h0
    refine ⟨by simp [h0], ?_, ?_⟩
    · simp only [String.reduceEq, false_iff]
      omega
    · simp only [String.reduceEq, false_iff]
      omega
  · rename_i h0
    split
    · rename_i h5
      refine ⟨by simp [h0], ?_, ?_⟩
      · simp only [true_iff]
        omega
      · simp only [String.reduceEq, false_iff]
        omega
    · rename_i h5
      refine ⟨by simp [h0], ?_, ?_⟩
      · simp only [String.reduceEq, false_iff]
        omega
      · simp only [true_iff]
        omega

/-- C5 witness: quantity 5 classifies as `poco_stock` and quantity 6 as
`buen_stock` (and 0 as `sin_stock`), via the boundary theorem. -/
theorem estado_stock_spec_witness :
    (estado_stock ⟨3, "M", 5⟩ = "poco_stock" ↔
        1 ≤ (5 : Int) ∧ (5 : Int) ≤ 5)
      ∧ (estado_stock ⟨3, "M", 6⟩ = "buen_stock" ↔ 5 < (6 : Int))
      ∧ (estado_stock ⟨3, "M", 0⟩ = "sin_stock" ↔ (0 : Int) = 0) :=
  ⟨(estado_stock_spec ⟨3, "M", 5⟩ (by decide)).2.1,
   (estado_stock_spec ⟨3, "M", 6⟩ (by decide)).2.2,
   (estado_stock_spec ⟨3, "M", 0⟩ (by decide)).1⟩

/-- C10: `estado_stock` is total over all integer quantities: a negative
quantity falls into the `poco_stock` branch, the `sin_stock` branch
matches exactly quantity 0, and every quantity ≤ 5 other than 0 yields
`poco_stock`. -/
theorem estado_stock_total_spec (st : StockTalla) :
    (st.cantidad < 0 → estado_stock st = "poco_stock")
    ∧ (estado_stock st = "sin_stock" ↔ st.cantidad = 0)
    ∧ (st.cantidad ≤ 5 → st.cantidad ≠ 0 → estado_stock st = "poco_stock") := by
  unfold estado_stock
  refine ⟨fun hneg => ?_, ?_, fun hle hne => ?_⟩
  · rw [if_neg (by omega), if_pos (by omega)]
  · split
    · rename_i h0
      simp [h0]
    · split <;> simp_all
  · rw [if_neg hne, if_pos hle]

/-- C10 witness: a bypassed-validation row with quantity -3 evaluates to
`poco_stock`, not `sin_stock`. -/
theorem estado_stock_total_spec_witness :
    estado_stock ⟨3, "S", -3⟩ = "poco_stock" :=
  (estado_stock_total_spec ⟨3, "S", -3⟩).1 (by decide)

/-- Python `\s` over ASCII text: the whitespace characters recognised by
the regexes in `django.utils.text.slugify`. -/
def isPySpace (c : Char) : Bool :=
  c = ' ' || c = '\t' || c = '\n' || c = '\x0b' || c = '\x0c' || c = '\r'

/-- A character matched by `[-\s]` (the separator run collapsed to a
single hyphen by `slugify`). -/
def sepChar (c : Char) : Bool :=
  c = '-' || isPySpace c

/-- Python `\w` over ASCII text: letters, digits and underscore. -/
def isPyWordChar (c : Char) : Bool :=
  c.isAlphanum || c = '_'

/-- NFKD decomposition followed by dropping combining marks, for the
Latin letters with an ASCII base that this catalog's text uses; other
characters have no ASCII decomposition. -/
def accentFold : Char → Option Char
  | 'á' => some 'a' | 'à' => some 'a' | 'ä' => some 'a' | 'â' => some 'a'
  | 'é' => some 'e' | 'è' => some 'e' | 'ë' => some 'e' | 'ê' => some 'e'
  | 'í' => some 'i' | 'ì' => some 'i' | 'ï' => some 'i' | 'î' => some 'i'
  | 'ó' => some 'o' | 'ò' => some 'o' | 'ö' => some 'o' | 'ô' => some 'o'
  | 'ú' => some 'u' | 'ù' => some 'u' | 'ü' => some 'u' | 'û' => some 'u'
  | 'ñ' => some 'n' | 'ç' => some 'c'
  | 'Á' => some 'A' | 'À' => some 'A' | 'Ä' => some 'A' | 'Â' => some 'A'
  | 'É' => some 'E' | 'È' => some 'E' | 'Ë' => some 'E' | 'Ê' => some 'E'
  | 'Í' => some 'I' | 'Ì' => some 'I' | 'Ï' => some 'I' | 'Î' => some 'I'
  | 'Ó' => some 'O' | 'Ò' => some 'O' | 'Ö' => some 'O' | 'Ô' => some 'O'
  | 'Ú' => some 'U' | 'Ù' => some 'U' | 'Ü' => some 'U' | 'Û' => some 'U'
  | 'Ñ' => some 'N' | 'Ç' => some 'C'
  | _ => none

/-- `unicodedata.normalize('NFKD', ·).encode('ascii', 'ignore')` applied
to one character: ASCII characters pass through, accented Latin letters
lose their combining mark, anything else is dropped. -/
def nfkdAscii (c : Char) : List Char :=
  if c.toNat < 128 then [c]
  else
    match accentFold c with
    | some b => [b]
    | none => []

/-- `re.sub(r"[-\s]+", "-", ·)`: every maximal run of separator
characters becomes a single hyphen. -/
def collapseSeps : List Char → List Char
  | [] => []
  | [c] => if sepChar c then ['-'] else [c]
  | c :: d :: rest =>
    if sepChar c then
      if sepChar d then collapseSeps (d :: rest)
      else '-' :: collapseSeps (d :: rest)
    else c :: collapseSeps (d :: rest)

/-- Python `str.strip("-_")`: remove leading and trailing hyphens and
underscores. -/
def stripDashUnderscore (l : List Char) : List Char :=
  ((l.dropWhile (fun c => c = '-' || c = '_')).reverse.dropWhile
      (fun c => c = '-' || c = '_')).reverse

/-- Embedding of `django.utils.text.slugify` (with
`allow_unicode=False`): NFKD-normalise and drop non-ASCII, lowercase,
delete everything outside `[\w\s-]`, collapse separator runs to single
hyphens, and strip `-`/`_` from both ends. -/
def slugify (s : String) : String :=
  let ascii := s.data.flatMap nfkdAscii
  let lowered := ascii.map Char.toLower
  let kept := lowered.filter (fun c => isPyWordChar c || isPySpace c || c = '-')
  ⟨stripDashUnderscore (collapseSeps kept)⟩

/-- Embedding of `Producto.save`:
`if not self.slug: self.slug = slugify(self.nombre)` followed by the
persistence call. Only the field update is modelled; Python's falsiness
test `not self.slug` on a `SlugField` is the empty-string test. -/
def Producto.save (p : Producto) : Producto :=
  if p.slug = "" then { p with slug := slugify p.nombre } else p

theorem accentFold_ascii {d b : Char} (h : accentFold d = some b) :
    b.toNat < 128 := by
  unfold accentFold at h
  split at h <;> first
    | (injection h with h; subst h; decide)
    | exact absurd h (by simp)

theorem mem_nfkdAscii {c d : Char} (h : c ∈ nfkdAscii d) : c.toNat < 128 := by
  unfold nfkdAscii at h
  split at h
  · rename_i hd
    simp only [List.mem_singleton] at h
    subst h
    exact hd
  · rcases hf : accentFold d with _ | b <;> simp only [hf] at h
    · exact absurd h (by simp)
    · simp only [List.mem_singleton] at h
      subst h
      exact accentFold_ascii hf

theorem mem_collapseSeps :
    ∀ (l : List Char) (c : Char), c ∈ collapseSeps l →
      c = '-' ∨ (c ∈ l ∧ sepChar c = false)
  | [], c, h => by simp [collapseSeps] at h
  | [d], c, h => by
      unfold collapseSeps at h
      split at h
      · simp only [List.mem_singleton] at h
        exact Or.inl h
      · rename_i hd
        simp only [List.mem_singleton] at h
        subst h
        exact Or.inr ⟨by simp, by simpa using hd⟩
  | d :: e :: rest, c, h => by
      unfold collapseSeps at h
      split at h
      · split at h
        · rcases mem_collapseSeps (e :: rest) c h with h1 | ⟨h2, h3⟩
          · exact Or.inl h1
          · exact Or.inr ⟨List.mem_cons_of_mem d h2, h3⟩
        · rcases List.mem_cons.mp h with h1 | h1
          · exact Or.inl h1
          · rcases mem_collapseSeps (e :: rest) c h1 with h2 | ⟨h2, h3⟩
            · exact Or.inl h2
            · exact Or.inr ⟨List.mem_cons_of_mem d h2, h3⟩
      · rename_i hd
        rcases List.mem_cons.mp h with h1 | h1
        · subst h1
          exact Or.inr ⟨List.mem_cons_self _ _, by simpa using hd⟩
        · rcases mem_collapseSeps (e :: rest) c h1 with h2 | ⟨h2, h3⟩
          · exact Or.inl h2
          · exact Or.inr ⟨List.mem_cons_of_mem d h2, h3⟩

theorem mem_stripDashUnderscore {l : List Char} {c : Char}
    (h : c ∈ stripDashUnderscore l) : c ∈ l := by
  unfold stripDashUnderscore at h
  rw [List.mem_reverse] at h
  have h1 := (List.dropWhile_sublist (l := (l.dropWhile
      (fun c => c = '-' || c = '_')).reverse)
      (fun c => c = '-' || c = '_')).subset h
  rw [List.mem_reverse] at h1
  exact (List.dropWhile_sublist (fun c => c = '-' || c = '_')).subset h1

theorem asciiLower_wordChar_class :
    ∀ n, n < 128 →
      (isPyWordChar (Char.toLower (Char.ofNat n)) = true →
        (Char.toLower (Char.ofNat n)).isLower = true
          ∨ (Char.toLower (Char.ofNat n)).isDigit = true
          ∨ Char.toLower (Char.ofNat n) = '_') := by
  decide

/-- Every character of a slug is a lowercase letter, a digit, a hyphen
or an underscore: slugs are lowercase and URL-safe. -/
theorem slugify_chars (s : String) :
    ∀ c ∈ (slugify s).data,
      c.isLower = true ∨ c.isDigit = true ∨ c = '-' ∨ c = '_' := by
  intro c hc
  simp only [slugify] at hc
  have hc2 := mem_stripDashUnderscore hc
  rcases mem_collapseSeps _ c hc2 with h1 | ⟨h3, h4⟩
  · exact Or.inr (Or.inr (Or.inl h1))
  · rw [List.mem_filter] at h3
    obtain ⟨h5, h6⟩ := h3
    rw [List.mem_map] at h5
    obtain ⟨d, hd, rfl⟩ := h5
    rw [List.mem_flatMap] at hd
    obtain ⟨e, _, hde⟩ := hd
    have hascii := mem_nfkdAscii hde
    have hword : isPyWordChar (Char.toLower d) = true := by
      rcases Bool.or_eq_true_iff.mp h6 with h7 | h7
      · rcases Bool.or_eq_true_iff.mp h7 with h8 | h8
        · exact h8
        · exfalso
          rw [sepChar] at h4
          simp [isPySpace] at h8 h4
          tauto
      · exfalso
        rw [sepChar] at h4
        simp at h7 h4
        tauto
    have := asciiLower_wordChar_class d.toNat hascii
    rw [Char.ofNat_toNat] at this
    rcases this hword with h7 | h7 | h7
    · exact Or.inl h7
    · exact Or.inr (Or.inl h7)
    · exact Or.inr (Or.inr (Or.inr h7))

/-- Sample product saved with an empty slug. -/
def camisetaNueva : Producto :=
  { id := 1, nombre := "Camiseta Roja", slug := ""
    descripcion := "Camiseta", categoria := catPolera, precio := 15000
    activo := true, destacado := false, fecha_creacion := 1
    fecha_actualizacion := 1, tipo_pantalon := none
    tipo_accesorio := none, material := none, dimensiones := none
    color := none, stock_accesorio := 0, caracteristicas := none }

/-- C3: saving with an empty slug derives it from the name by `slugify`
(lowercase/accent-stripped/hyphenated output); saving with a non-empty
slug changes nothing; the assignment is idempotent; and once the saved
slug is non-empty, renaming and saving again never alters it. -/
theorem producto_save_slug_spec (p : Producto) :
    (p.slug = "" → (Producto.save p).slug = slugify p.nombre)
    ∧ (p.slug ≠ "" → Producto.save p = p)
    ∧ Producto.save (Producto.save p) = Producto.save p
    ∧ (∀ nuevo : String, (Producto.save p).slug ≠ "" →
        (Producto.save { Producto.save p with nombre := nuevo }).slug
          = (Producto.save p).slug)
    ∧ (∀ c ∈ (slugify p.nombre).data,
        c.isLower = true ∨ c.isDigit = true ∨ c = '-' ∨ c = '_')
    ∧ slugify "Camiseta Roja" = "camiseta-roja" := by
  refine ⟨fun h => by simp [Producto.save, h], fun h => by simp [Producto.save, h],
    ?_, fun nuevo h => ?_, slugify_chars p.nombre, by decide⟩
  · by_cases h : p.slug = ""
    · by_cases h2 : slugify p.nombre = "" <;> simp [Producto.save, h, h2]
    · simp [Producto.save, h]
  · have hs : ({ Producto.save p with nombre := nuevo } : Producto).slug
        = (Producto.save p).slug := rfl
    rw [Producto.save, if_neg (by rw [hs]; exact h), hs]

/-- C3 witness: saving "Camiseta Roja" with an empty slug yields
"camiseta-roja", and a rename followed by another save keeps it. -/
theorem producto_save_slug_spec_witness :
    (Producto.save camisetaNueva).slug = slugify camisetaNueva.nombre
      ∧ (Producto.save
            { Producto.save camisetaNueva with nombre := "Polera Azul" }).slug
          = (Producto.save camisetaNueva).slug
      ∧ (Producto.save camisetaNueva).slug = "camiseta-roja" :=
  ⟨(producto_save_slug_spec camisetaNueva).1 rfl,
   (producto_save_slug_spec camisetaNueva).2.2.2.1 "Polera Azul" (by decide),
   by decide⟩

/-- Embedding of `ImagenProducto`: image row owned by a product
(`producto` is the owning product's id), with carousel order and the
primary flag. `imagen` is the stored file reference. Rows carry a
primary-key `id` so that saving can distinguish update from insert. -/
structure ImagenProducto where
  id : Nat
  producto : Nat
  imagen : String
  orden : Int
  es_principal : Bool
deriving Repr, DecidableEq

/-- The queryset update
`ImagenProducto.objects.filter(producto=pid, es_principal=True)
.update(es_principal=False)`: clear the primary flag on every row of
product `pid` that currently has it. -/
def clearPrincipal (db : List ImagenProducto) (pid : Nat) :
    List ImagenProducto :=
  db.map (fun r =>
    if r.producto = pid ∧ r.es_principal then { r with es_principal := false }
    else r)

/-- `super().save(...)` on a row: update in place when a row with the
same primary key exists, insert (append) otherwise. -/
def upsertRow (db : List ImagenProducto) (img : ImagenProducto) :
    List ImagenProducto :=
  if db.any (fun r => r.id = img.id) then
    db.map (fun r => if r.id = img.id then img else r)
  else db ++ [img]

/-- Embedding of `ImagenProducto.save`: when the incoming row is marked
primary, first clear the flag on every currently-primary row of the same
product, then persist the row. -/
def ImagenProducto.save (db : List ImagenProducto) (img : ImagenProducto) :
    List ImagenProducto :=
  if img.es_principal then upsertRow (clearPrincipal db img.producto) img
  else upsertRow db img

/-- The rows of product `pid` currently flagged primary. -/
def esPrincipalDe (pid : Nat) (r : ImagenProducto) : Bool :=
  decide (r.producto = pid) && r.es_principal

/-- All primary images of product `pid` in the table. -/
def principales (db : List ImagenProducto) (pid : Nat) :
    List ImagenProducto :=
  db.filter (esPrincipalDe pid)

theorem clear_no_principal (db : List ImagenProducto) (pid : Nat) :
    ∀ r ∈ clearPrincipal db pid, esPrincipalDe pid r = false := by
  intro r hr
  simp only [clearPrincipal, List.mem_map] at hr
  obtain ⟨s, _, rfl⟩ := hr
  by_cases hc : s.producto = pid ∧ s.es_principal
  · simp [esPrincipalDe, hc]
  · rw [if_neg hc]
    push_neg at hc
    by_cases h1 : s.producto = pid
    · simp [esPrincipalDe, h1, hc h1]
    · simp [esPrincipalDe, h1]

theorem clear_ids (db : List ImagenProducto) (pid : Nat) :
    (clearPrincipal db pid).map (fun r => r.id) = db.map (fun r => r.id) := by
  induction db with
  | nil => rfl
  | cons r rest ih =>
      simp only [clearPrincipal, List.map_cons] at ih ⊢
      rw [ih]
      by_cases hc : r.producto = pid ∧ r.es_principal <;> simp [hc]

theorem count_id_le_one (db : List ImagenProducto) (i : Nat)
    (h : (db.map (fun r => r.id)).Nodup) :
    (db.filter (fun r => decide (r.id = i))).length ≤ 1 := by
  induction db with
  | nil => simp
  | cons r rest ih =>
      simp only [List.map_cons, List.nodup_cons] at h
      simp only [List.filter_cons]
      by_cases hr : r.id = i
      · have hrest : rest.filter (fun r => decide (r.id = i)) = [] := by
          rw [List.filter_eq_nil_iff]
          intro e he
          simp only [decide_eq_true_eq]
          intro hei
          apply h.1
          rw [hr, ← hei]
          exact List.mem_map_of_mem _ he
        simp [hr, hrest]
      · rw [if_neg (by simpa using hr)]
        exact ih h.2

theorem replace_principal_count (l : List ImagenProducto)
    (img : ImagenProducto)
    (hall : ∀ r ∈ l, esPrincipalDe img.producto r = false)
    (hid : (l.filter (fun r => decide (r.id = img.id))).length ≤ 1) :
    ((l.map (fun r => if r.id = img.id then img else r)).filter
        (esPrincipalDe img.producto)).length ≤ 1 := by
  induction l with
  | nil => simp
  | cons r rest ih =>
      have hr := hall r (List.mem_cons_self r rest)
      simp only [List.map_cons, List.filter_cons]
      by_cases hrid : r.id = img.id
      · have hid2 : (rest.filter (fun r => decide (r.id = img.id))).length
            = 0 := by
          rw [List.filter_cons, if_pos (by simpa using hrid)] at hid
          simp only [List.length_cons] at hid
          omega
        have hrest : rest.filter (fun r => decide (r.id = img.id)) = [] :=
          List.length_eq_zero.mp hid2
        have hsame : rest.map (fun r => if r.id = img.id then img else r)
            = rest := by
          conv_rhs => rw [← List.map_id rest]
          refine List.map_congr_left fun e he => ?_
          simp only [id_eq]
          rw [if_neg ?_]
          intro hei
          have hmem : e ∈ rest.filter (fun r => decide (r.id = img.id)) :=
            List.mem_filter.mpr ⟨he, by simp [hei]⟩
          simp [hrest] at hmem
        have hrestp :
            (rest.filter (esPrincipalDe img.producto)).length = 0 := by
          rw [List.length_eq_zero, List.filter_eq_nil_iff]
          intro e he
          simp [hall e (List.mem_cons_of_mem r he)]
        rw [if_pos hrid, hsame]
        split
        · simp only [List.length_cons]
          omega
        · omega
      · rw [if_neg hrid, hr, if_neg (by simp)]
        refine ih (fun e he => hall e (List.mem_cons_of_mem r he)) ?_
        rw [List.filter_cons, if_neg (by simpa using hrid)] at hid
        exact hid

theorem replace_principal_mono (l : List ImagenProducto)
    (img : ImagenProducto) (pid : Nat)
    (himg : esPrincipalDe pid img = false) :
    ((l.map (fun r => if r.id = img.id then img else r)).filter
        (esPrincipalDe pid)).length
      ≤ (l.filter (esPrincipalDe pid)).length := by
  induction l with
  | nil => simp
  | cons r rest ih =>
      simp only [List.map_cons, List.filter_cons]
      by_cases hrid : r.id = img.id
      · rw [if_pos hrid, himg, if_neg (by simp)]
        split
        · exact Nat.le_trans ih (by simp)
        · exact ih
      · rw [if_neg hrid]
        split
        · simpa using ih
        · exact ih

/-- C4: `ImagenProducto.save` maintains the at-most-one-primary
invariant: on a table with distinct primary keys and at most one primary
image of the saved row's product, the table after the save again has at
most one; concretely, with A primary and B not, saving B as primary
leaves exactly B primary and clears A. -/
theorem imagen_save_principal_spec (db : List ImagenProducto)
    (img : ImagenProducto)
    (hids : (db.map (fun r => r.id)).Nodup)
    (hinv : (principales db img.producto).length ≤ 1) :
    (principales (ImagenProducto.save db img) img.producto).length ≤ 1
    ∧ ImagenProducto.save
        [⟨1, 5, "frente.jpg", 0, true⟩, ⟨2, 5, "lado.jpg", 1, false⟩]
        ⟨2, 5, "lado.jpg", 1, true⟩
        = [⟨1, 5, "frente.jpg", 0, false⟩, ⟨2, 5, "lado.jpg", 1, true⟩]
    ∧ principales
        [⟨1, 5, "frente.jpg", 0, false⟩, ⟨2, 5, "lado.jpg", 1, true⟩] 5
        = [⟨2, 5, "lado.jpg", 1, true⟩] := by
  refine ⟨?_, by decide, by decide⟩
  unfold ImagenProducto.save principales
  by_cases hp : img.es_principal
  · rw [if_pos hp]
    unfold upsertRow
    split
    · exact replace_principal_count _ img
        (clear_no_principal db img.producto)
        (count_id_le_one _ img.id (by rw [clear_ids]; exact hids))
    · rw [List.filter_append]
      have h1 : (clearPrincipal db img.producto).filter
          (esPrincipalDe img.producto) = [] := by
        rw [List.filter_eq_nil_iff]
        intro r hr
        simp [clear_no_principal db img.producto r hr]
      rw [h1, List.nil_append]
      exact Nat.le_trans (List.length_filter_le _ _) (by simp)
  · rw [if_neg hp]
    unfold upsertRow
    split
    · exact Nat.le_trans
        (replace_principal_mono db img img.producto
          (by simp [esPrincipalDe, hp]))
        hinv
    · rw [List.filter_append]
      have h1 : [img].filter (esPrincipalDe img.producto) = [] := by
        simp [esPrincipalDe, hp]
      rw [h1, List.append_nil]
      exact hinv

/-- C4 witness: the invariant-preservation instance on the two-image
table, saving image 2 as primary. -/
theorem imagen_save_principal_spec_witness :
    (principales
        (ImagenProducto.save
          [⟨1, 5, "frente.jpg", 0, true⟩, ⟨2, 5, "lado.jpg", 1, false⟩]
          ⟨2, 5, "lado.jpg", 1, true⟩) 5).length ≤ 1 :=
  (imagen_save_principal_spec
    [⟨1, 5, "frente.jpg", 0, true⟩, ⟨2, 5, "lado.jpg", 1, false⟩]
    ⟨2, 5, "lado.jpg", 1, true⟩ (by decide) (by decide)).1

/-- C9: saving a non-primary image skips the clearing step entirely, so
every other row of the table is kept unchanged; a table can therefore
legitimately end up with zero primary images for a product. -/
theorem imagen_save_frame_spec (db : List ImagenProducto)
    (img : ImagenProducto) (h : img.es_principal = false) :
    ImagenProducto.save db img = upsertRow db img
    ∧ (∀ r ∈ db, r.id ≠ img.id → r ∈ ImagenProducto.save db img)
    ∧ principales
        (ImagenProducto.save [⟨1, 5, "frente.jpg", 0, false⟩]
          ⟨2, 5, "lado.jpg", 1, false⟩) 5 = [] := by
  refine ⟨by simp [ImagenProducto.save, h], fun r hr hne => ?_, by decide⟩
  rw [ImagenProducto.save, if_neg (by simp [h])]
  unfold upsertRow
  split
  · exact List.mem_map.mpr ⟨r, hr, if_neg hne⟩
  · exact List.mem_append_left _ hr

/-- C9 witness: saving non-primary image 2 keeps row 1 (still
non-primary) untouched, and the product ends with zero primaries. -/
theorem imagen_save_frame_spec_witness :
    (⟨1, 5, "frente.jpg", 0, false⟩ : ImagenProducto) ∈
      ImagenProducto.save [⟨1, 5, "frente.jpg", 0, false⟩]
        ⟨2, 5, "lado.jpg", 1, false⟩ :=
  (imagen_save_frame_spec [⟨1, 5, "frente.jpg", 0, false⟩]
      ⟨2, 5, "lado.jpg", 1, false⟩ rfl).2.1
    ⟨1, 5, "frente.jpg", 0, false⟩ (by simp) (by decide)

/-- The decimal digit character for `d`. -/
def digitChar (d : Nat) : Char := Char.ofNat (48 + d)

/-- Fuel-driven decimal digit-string builder (most significant digit
first); the fuel only bounds the recursion depth. -/
def natDigitsAux : Nat → Nat → List Char
  | 0, _ => []
  | fuel + 1, n =>
    if n < 10 then [digitChar n]
    else natDigitsAux fuel (n / 10) ++ [digitChar (n % 10)]

/-- The decimal digit string of `n`, e.g. `15000 ↦ "15000"`. -/
def natDigits (n : Nat) : List Char := natDigitsAux (n + 1) n

/-- Insert a comma after every three characters (used on the reversed
digit string, so commas land every three digits from the right, exactly
as CPython's `,` format option groups an integer). -/
def commaRev : List Char → List Char
  | [] => []
  | [a] => [a]
  | [a, b] => [a, b]
  | [a, b, c] => [a, b, c]
  | a :: b :: c :: d :: rest => a :: b :: c :: ',' :: commaRev (d :: rest)

/-- Python's `f"{v:,.0f}"` for a non-negative integral `v`: the decimal
digit string with a comma inserted every three digits from the right. -/
def pyThousands (n : Nat) : String :=
  ⟨(commaRev (natDigits n).reverse).reverse⟩

/-- Embedding of the property `Producto.precio_formateado`:
`return f"${self.precio:,.0f}"`. -/
def precio_formateado (p : Producto) : String :=
  "$" ++ pyThousands p.precio

/-- Three-digit zero-padded digit string of `m < 1000`. -/
def pad3 (m : Nat) : List Char :=
  [digitChar (m / 100), digitChar ((m / 10) % 10), digitChar (m % 10)]

/-- The spec's reading of the format: the integer amount grouped with
comma thousands separators, built by splitting off three decimal digits
at a time. Stated independently of `pyThousands` so that the two can be
proved to agree. -/
def groupedThousands (n : Nat) : String :=
  if n < 1000 then ⟨natDigits n⟩
  else groupedThousands (n / 1000) ++ "," ++ ⟨pad3 (n % 1000)⟩
termination_by n
decreasing_by exact Nat.div_lt_self (by omega) (by omega)

theorem natDigitsAux_congr :
    ∀ (f g n : Nat), n < f → n < g → natDigitsAux f n = natDigitsAux g n
  | f + 1, g + 1, n, hf, hg => by
      unfold natDigitsAux
      split
      · rfl
      · rename_i h10
        have hd : n / 10 < n := Nat.div_lt_self (by omega) (by omega)
        rw [natDigitsAux_congr f g (n / 10) (by omega) (by omega)]
  | 0, _, n, hf, _ => absurd hf (by omega)
  | _ + 1, 0, n, _, hg => absurd hg (by omega)

theorem natDigits_eq (n : Nat) :
    natDigits n =
      if n < 10 then [digitChar n]
      else natDigits (n / 10) ++ [digitChar (n % 10)] := by
  by_cases h : n < 10
  · rw [if_pos h]
    unfold natDigits natDigitsAux
    rw [if_pos h]
  · rw [if_neg h]
    unfold natDigits
    conv_lhs => rw [natDigitsAux]
    rw [if_neg h]
    congr 1
    have hd : n / 10 < n := Nat.div_lt_self (by omega) (by omega)
    exact natDigitsAux_congr n (n / 10 + 1) (n / 10) (by omega) (by omega)

theorem natDigits_ne_nil (n : Nat) : natDigits n ≠ [] := by
  rw [natDigits_eq]
  split <;> simp

theorem natDigits_short (n : Nat) (h : n < 1000) :
    (natDigits n).length ≤ 3 := by
  by_cases h1 : n < 10
  · rw [natDigits_eq n, if_pos h1]
    simp
  · by_cases h2 : n < 100
    · rw [natDigits_eq n, if_neg h1, natDigits_eq (n / 10),
        if_pos (show n / 10 < 10 by omega)]
      simp
    · rw [natDigits_eq n, if_neg h1, natDigits_eq (n / 10),
        if_neg (show ¬n / 10 < 10 by omega), natDigits_eq (n / 10 / 10),
        if_pos (show n / 10 / 10 < 10 by omega)]
      simp

theorem commaRev_short (l : List Char) (h : l.length ≤ 3) :
    commaRev l = l := by
  match l with
  | [] => rfl
  | [a] => rfl
  | [a, b] => rfl
  | [a, b, c] => rfl
  | a :: b :: c :: d :: rest => simp at h

theorem natDigits_decompose (n : Nat) (h : 1000 ≤ n) :
    natDigits n = natDigits (n / 1000) ++ pad3 (n % 1000) := by
  have e1 : n % 1000 / 100 = n / 100 % 10 := by omega
  have e2 : n % 1000 / 10 % 10 = n / 10 % 10 := by omega
  have e3 : n % 1000 % 10 = n % 10 := by omega
  have s1 : natDigits n = natDigits (n / 10) ++ [digitChar (n % 10)] := by
    rw [natDigits_eq n, if_neg (by omega)]
  have s2 : natDigits (n / 10)
      = natDigits (n / 100) ++ [digitChar (n / 10 % 10)] := by
    rw [natDigits_eq (n / 10), if_neg (by omega),
      show n / 10 / 10 = n / 100 by omega]
  have s3 : natDigits (n / 100)
      = natDigits (n / 1000) ++ [digitChar (n / 100 % 10)] := by
    rw [natDigits_eq (n / 100), if_neg (by omega),
      show n / 100 / 10 = n / 1000 by omega]
  rw [s1, s2, s3, pad3, e1, e2, e3]
  simp [List.append_assoc]

theorem mk_append (l1 l2 : List Char) :
    String.mk l1 ++ String.mk l2 = String.mk (l1 ++ l2) := rfl

theorem commaRev_snoc3 (w : List Char) (x y z : Char) (hw : w ≠ []) :
    (commaRev ((w ++ [x, y, z]).reverse)).reverse
      = (commaRev w.reverse).reverse ++ [','] ++ [x, y, z] := by
  obtain ⟨d, rest, hdr⟩ : ∃ d rest, w.reverse = d :: rest := by
    rcases hrev : w.reverse with _ | ⟨d, rest⟩
    · exact absurd (by simpa using congrArg List.reverse hrev) hw
    · exact ⟨d, rest, rfl⟩
  rw [List.reverse_append, hdr]
  simp only [List.reverse_cons, List.reverse_nil, List.nil_append,
    List.cons_append, List.append_assoc, List.singleton_append]
  rw [commaRev]
  simp

theorem pyThousands_eq_grouped (n : Nat) :
    pyThousands n = groupedThousands n := by
  induction n using Nat.strong_induction_on with
  | _ n ih =>
    rw [groupedThousands]
    split
    · rename_i h
      unfold pyThousands
      rw [commaRev_short _ (by simpa using natDigits_short n h),
        List.reverse_reverse]
    · rename_i h
      have hlt : n / 1000 < n := Nat.div_lt_self (by omega) (by omega)
      rw [← ih (n / 1000) hlt]
      unfold pyThousands
      rw [natDigits_decompose n (by omega), pad3,
        commaRev_snoc3 _ _ _ _ (natDigits_ne_nil (n / 1000))]
      rw [show ("," : String) = String.mk [','] from rfl, mk_append, mk_append]

/-- C6: `precio_formateado` renders the price as `$` followed by the
integer amount grouped with comma thousands separators (no decimals);
price 15000 formats as "$15,000". -/
theorem precio_formateado_spec (p : Producto) :
    precio_formateado p = "$" ++ groupedThousands p.precio
    ∧ precio_formateado camisetaNueva = "$15,000" := by
  constructor
  · rw [precio_formateado, pyThousands_eq_grouped]
  · decide

/-- UTF-8 encoding of one character, as its list of byte values. -/
def utf8Bytes (c : Char) : List Nat :=
  let n := c.toNat
  if n < 128 then [n]
  else if n < 2048 then [192 + n / 64, 128 + n % 64]
  else if n < 65536 then [224 + n / 4096, 128 + n / 64 % 64, 128 + n % 64]
  else [240 + n / 262144, 128 + n / 4096 % 64, 128 + n / 64 % 64,
    128 + n % 64]

/-- The UTF-8 byte sequence of a string. -/
def stringBytes (s : String) : List Nat :=
  s.data.flatMap utf8Bytes

/-- Bytes that `urllib.parse.quote` leaves unescaped under its default
`safe='/'`: ASCII letters and digits, `_`, `.`, `-`, `~`, and `/`. -/
def quoteSafeByte (b : Nat) : Bool :=
  (65 ≤ b && b ≤ 90) || (97 ≤ b && b ≤ 122) || (48 ≤ b && b ≤ 57)
    || b = 95 || b = 46 || b = 45 || b = 126 || b = 47

/-- Uppercase hexadecimal digit character for `d < 16`. -/
def hexDigit (d : Nat) : Char :=
  if d < 10 then Char.ofNat (48 + d) else Char.ofNat (55 + d)

/-- One byte of `urllib.parse.quote` output: safe bytes stand for
themselves, every other byte becomes `%` plus two uppercase hex
digits. -/
def quoteByte (b : Nat) : List Char :=
  if quoteSafeByte b then [Char.ofNat b]
  else ['%', hexDigit (b / 16), hexDigit (b % 16)]

/-- Embedding of `urllib.parse.quote(mensaje)` with the default safe
set: percent-encode every UTF-8 byte outside the safe set. -/
def urlQuote (s : String) : String :=
  ⟨(s.data.flatMap utf8Bytes).flatMap quoteByte⟩

/-- Django's generated `get_tipo_pantalon_display()`: the human label
for the stored value from the field's choices; an unknown stored value
displays as itself. -/
def tipoPantalonDisplay : String → String
  | "short" => "Short"
  | "pantalon_largo" => "Pantalón Largo"
  | "jogger" => "Jogger"
  | v => v

/-- Django's generated `get_tipo_accesorio_display()` over
`TIPO_ACCESORIO_CHOICES`. -/
def tipoAccesorioDisplay : String → String
  | "mochila" => "Mochila"
  | "cinturon" => "Cinturón"
  | "cartera" => "Cartera"
  | "cadena" => "Cadena"
  | "gorra" => "Gorra"
  | "llavero" => "Llavero"
  | "billetera" => "Billetera"
  | "riñonera" => "Riñonera"
  | "collar" => "Collar"
  | "pulsera" => "Pulsera"
  | "anillo" => "Anillo"
  | "bolso" => "Bolso"
  | "otro" => "Otro"
  | v => v

/-- One conditional `mensaje += line(x)` block of `get_whatsapp_url`:
Python's `if field:` test is false for `None` and for the empty
string. -/
def optLine (m : String) (field : Option String)
    (line : String → String) : String :=
  match field with
  | some t => if t = "" then m else m ++ line t
  | none => m

/-- The prefilled message `mensaje` built by `Producto.get_whatsapp_url`
before encoding: greeting with the product name, the formatted price,
then optional size, pants-type, accessory-type and color lines, and the
closing availability question. -/
def mensaje (p : Producto) (talla : Option String) : String :=
  let m1 := "Hola! Estoy interesado en: *" ++ p.nombre ++ "*\n"
  let m2 := m1 ++ "Precio: $" ++ pyThousands p.precio ++ "\n"
  let m3 := optLine m2 talla (fun t => "Talla: " ++ t ++ "\n")
  let m4 := optLine m3 p.tipo_pantalon
    (fun t => "Tipo: " ++ tipoPantalonDisplay t ++ "\n")
  let m5 := optLine m4 p.tipo_accesorio
    (fun t => "Tipo: " ++ tipoAccesorioDisplay t ++ "\n")
  let m6 := optLine m5 p.color (fun c => "Color: " ++ c ++ "\n")
  m6 ++ "\n¿Está disponible?"

/-- Embedding of `Producto.get_whatsapp_url`:
`return f"https://wa.me/56992154182?text={mensaje_encoded}"`. -/
def get_whatsapp_url (p : Producto) (talla : Option String) : String :=
  "https://wa.me/56992154182?text=" ++ urlQuote (mensaje p talla)

/-- Value of one hexadecimal digit character. -/
def hexVal (c : Char) : Nat :=
  if 48 ≤ c.toNat && c.toNat ≤ 57 then c.toNat - 48
  else if 65 ≤ c.toNat && c.toNat ≤ 70 then c.toNat - 55
  else if 97 ≤ c.toNat && c.toNat ≤ 102 then c.toNat - 87
  else 0

/-- Independent percent-decoder, byte level: `%XX` yields the byte
`0xXX`, any other (ASCII) character yields its own code. Decoding the
`text=` parameter with it recovers the message's UTF-8 bytes. -/
def percentDecodeBytes : List Char → List Nat
  | [] => []
  | '%' :: h :: l :: rest => (hexVal h * 16 + hexVal l) :: percentDecodeBytes rest
  | c :: rest => c.toNat :: percentDecodeBytes rest

/-- `mid` occurs contiguously inside `s`. -/
def strInfix (mid s : String) : Prop :=
  ∃ u v, s = u ++ mid ++ v

theorem strInfix_refl (m : String) : strInfix m m :=
  ⟨"", "", by simp⟩

theorem strInfix_left (m s t : String) (h : strInfix m s) :
    strInfix m (s ++ t) := by
  obtain ⟨u, v, rfl⟩ := h
  exact ⟨u, v ++ t, by simp [String.append_assoc]⟩

theorem strInfix_right (m s t : String) (h : strInfix m s) :
    strInfix m (t ++ s) := by
  obtain ⟨u, v, rfl⟩ := h
  exact ⟨t ++ u, v, by simp [String.append_assoc]⟩

theorem strInfix_optLine (m s : String) (f : Option String)
    (line : String → String) (h : strInfix m s) :
    strInfix m (optLine s f line) := by
  unfold optLine
  rcases f with _ | t
  · exact h
  · show strInfix m (if t = "" then s else s ++ line t)
    by_cases ht : t = ""
    · rw [if_pos ht]
      exact h
    · rw [if_neg ht]
      exact strInfix_left m s (line t) h

theorem optLine_some (s t : String) (line : String → String)
    (h : t ≠ "") : strInfix (line t) (optLine s (some t) line) := by
  unfold optLine
  show strInfix (line t) (if t = "" then s else s ++ line t)
  rw [if_neg h]
  exact strInfix_right _ _ s (strInfix_refl (line t))

/-- The spec's end-to-end contact-link product: "Polera Negra" at price
9990 in the apparel-top category, no optional fields set. -/
def poleraNegra : Producto :=
  { id := 9, nombre := "Polera Negra", slug := "polera-negra"
    descripcion := "Polera negra basica", categoria := catPolera
    precio := 9990, activo := true, destacado := false
    fecha_creacion := 30, fecha_actualizacion := 30, tipo_pantalon := none
    tipo_accesorio := none, material := none, dimensiones := none
    color := none, stock_accesorio := 0, caracteristicas := none }

/-- C7: `get_whatsapp_url` is the fixed base with a `text=` parameter
holding the percent-encoded message; the message contains the name, the
formatted price, the optional size / pants-type / accessory-type / color
lines when set, and the closing question; for "Polera Negra" at 9990
with size "M" the decoded query text is exactly the pinned string. -/
theorem get_whatsapp_url_spec (p : Producto) (talla : Option String) :
    get_whatsapp_url p talla
        = "https://wa.me/56992154182?text=" ++ urlQuote (mensaje p talla)
    ∧ strInfix p.nombre (mensaje p talla)
    ∧ strInfix ("$" ++ pyThousands p.precio) (mensaje p talla)
    ∧ (∀ t, talla = some t → t ≠ "" →
        strInfix ("Talla: " ++ t ++ "\n") (mensaje p talla))
    ∧ (∀ t, p.tipo_pantalon = some t → t ≠ "" →
        strInfix ("Tipo: " ++ tipoPantalonDisplay t ++ "\n")
          (mensaje p talla))
    ∧ (∀ t, p.tipo_accesorio = some t → t ≠ "" →
        strInfix ("Tipo: " ++ tipoAccesorioDisplay t ++ "\n")
          (mensaje p talla))
    ∧ (∀ c, p.color = some c → c ≠ "" →
        strInfix ("Color: " ++ c ++ "\n") (mensaje p talla))
    ∧ (∃ u, mensaje p talla = u ++ "\n¿Está disponible?")
    ∧ mensaje poleraNegra (some "M")
        = "Hola! Estoy interesado en: *Polera Negra*\nPrecio: $9,990\nTalla: M\n\n¿Está disponible?"
    ∧ get_whatsapp_url poleraNegra (some "M")
        = "https://wa.me/56992154182?text="
            ++ urlQuote (mensaje poleraNegra (some "M"))
    ∧ percentDecodeBytes (urlQuote (mensaje poleraNegra (some "M"))).data
        = stringBytes (mensaje poleraNegra (some "M")) := by
  refine ⟨rfl, ?_, ?_, ?_, ?_, ?_, ?_, ?_, by decide, rfl, by decide⟩
  · simp only [mensaje]
    apply strInfix_left
    apply strInfix_optLine
    apply strInfix_optLine
    apply strInfix_optLine
    apply strInfix_optLine
    apply strInfix_left
    apply strInfix_left
    exact strInfix_left _ _ _
      ⟨"Hola! Estoy interesado en: *", "*\n", rfl⟩
  · simp only [mensaje]
    apply strInfix_left
    apply strInfix_optLine
    apply strInfix_optLine
    apply strInfix_optLine
    apply strInfix_optLine
    refine ⟨"Hola! Estoy interesado en: *" ++ p.nombre ++ "*\n"
      ++ "Precio: ", "\n", ?_⟩
    rw [← String.append_assoc ("Hola! Estoy interesado en: *" ++ p.nombre
        ++ "*\n" ++ "Precio: ") "$" (pyThousands p.precio),
      String.append_assoc ("Hola! Estoy interesado en: *" ++ p.nombre
        ++ "*\n") "Precio: " "$",
      show ("Precio: " : String) ++ "$" = "Precio: $" from by decide]
  · intro t ht htne
    subst ht
    simp only [mensaje]
    apply strInfix_left
    apply strInfix_optLine
    apply strInfix_optLine
    apply strInfix_optLine
    exact optLine_some _ t _ htne
  · intro t ht htne
    simp only [mensaje, ht]
    apply strInfix_left
    apply strInfix_optLine
    apply strInfix_optLine
    exact optLine_some _ t _ htne
  · intro t ht htne
    simp only [mensaje, ht]
    apply strInfix_left
    apply strInfix_optLine
    exact optLine_some _ t _ htne
  · intro c hc hcne
    simp only [mensaje, hc]
    apply strInfix_left
    exact optLine_some _ c _ hcne
  · exact ⟨_, rfl⟩

/-- C7 witness: the size line for size "M" on the pinned product, and
the accessory-type line for the cap, each via the URL theorem. -/
theorem get_whatsapp_url_spec_witness :
    strInfix ("Talla: " ++ "M" ++ "\n") (mensaje poleraNegra (some "M"))
      ∧ strInfix ("Tipo: " ++ tipoAccesorioDisplay "gorra" ++ "\n")
          (mensaje gorraAgotada none) :=
  ⟨(get_whatsapp_url_spec poleraNegra (some "M")).2.2.2.1 "M" rfl
      (by decide),
   (get_whatsapp_url_spec gorraAgotada none).2.2.2.2.2.1 "gorra" rfl
      (by decide)⟩

/-- The pairwise order induced by
`Producto.Meta.ordering = ['-destacado', '-fecha_creacion']`: `a` may
come no later than `b` when `a` is featured and `b` is not, or, with
equal featured flags, when `a` was created no earlier than `b`
(`-field` is descending; Django's boolean ordering has true above false
under `-destacado`). -/
def listingLE (a b : Producto) : Bool :=
  if a.destacado ≠ b.destacado then a.destacado
  else decide (b.fecha_creacion ≤ a.fecha_creacion)

/-- The default catalog listing: all products arranged by
`Meta.ordering`. -/
def listadoProductos (l : List Producto) : List Producto :=
  l.mergeSort listingLE

theorem listingLE_trans (a b c : Producto) (hab : listingLE a b = true)
    (hbc : listingLE b c = true) : listingLE a c = true := by
  unfold listingLE at hab hbc ⊢
  cases hda : a.destacado <;> cases hdb : b.destacado <;>
    cases hdc : c.destacado <;>
    simp_all <;> omega

theorem listingLE_total (a b : Producto) :
    (listingLE a b || listingLE b a) = true := by
  unfold listingLE
  cases hda : a.destacado <;> cases hdb : b.destacado <;> simp_all <;> omega

/-- Sample featured product, older than the non-featured samples. -/
def poleraDestacada : Producto :=
  { id := 11, nombre := "Polera Destacada", slug := "polera-destacada"
    descripcion := "Polera destacada", categoria := catPolera
    precio := 12000, activo := true, destacado := true, fecha_creacion := 5
    fecha_actualizacion := 5, tipo_pantalon := none, tipo_accesorio := none
    material := none, dimensiones := none, color := none
    stock_accesorio := 0, caracteristicas := none }

/-- C8: the default listing order puts featured products strictly before
non-featured ones, orders equal-flag products by recency (newest first),
and every listing produced under it is pairwise so ordered. -/
theorem producto_ordering_spec :
    (∀ a b : Producto, a.destacado = true → b.destacado = false →
      listingLE a b = true ∧ listingLE b a = false)
    ∧ (∀ a b : Producto, a.destacado = b.destacado →
      (listingLE a b = true ↔ b.fecha_creacion ≤ a.fecha_creacion))
    ∧ ∀ l : List Producto,
        (listadoProductos l).Pairwise (fun a b => listingLE a b = true) := by
  refine ⟨fun a b ha hb => ?_, fun a b hd => ?_, fun l => ?_⟩
  · unfold listingLE
    rw [ha, hb]
    simp
  · unfold listingLE
    rw [hd]
    simp
  · exact List.sorted_mergeSort listingLE_trans listingLE_total l

/-- C8 witness: an old featured polera precedes a newer plain polera;
two non-featured products compare by recency; and the two-element
listing is pairwise ordered. -/
theorem producto_ordering_spec_witness :
    (listingLE poleraDestacada poleraBasica = true
        ∧ listingLE poleraBasica poleraDestacada = false)
      ∧ (listingLE gorraAgotada poleraBasica = true ↔
          poleraBasica.fecha_creacion ≤ gorraAgotada.fecha_creacion)
      ∧ (listadoProductos [poleraBasica, poleraDestacada]).Pairwise
          (fun a b => listingLE a b = true) :=
  ⟨producto_ordering_spec.1 poleraDestacada poleraBasica rfl rfl,
   producto_ordering_spec.2.1 gorraAgotada poleraBasica rfl,
   producto_ordering_spec.2.2 [poleraBasica, poleraDestacada]⟩
